import Mathlib

/-!
Verification of the concurrency-coordination core of the `mostly` repository:
the `cancellable` package (cancellable contexts and channels) and the
`superchan` package (Superchan: a cancellable channel with an ordered
deferred-cleanup registry, plus the two-stage `NewDouble` pipeline).

Embedding conventions:
* Hook functions are identified by labels (`Hook := Nat`); running a hook
  appends its label to an execution trace.
* Go errors are modelled by `Err := Nat`; a Go `error` value that may be nil
  is `Option Err` (`none` = nil).
* A Go nil slice is distinguished from an empty slice by `Option (List _)`
  (`none` = nil slice), because `Superchan.IsDead` tests `deferfuncs == nil`.
* A Go panic is modelled by `Except.error` carrying the panic message.
* Goroutine scheduling inside one phase of the fan-out cleanup runner is
  modelled by an arbitrary interleaving `mid` of the registered ordered list
  (theorems carry the hypothesis `mid.Perm l`); the `wg.Wait()` barriers of
  the source order the three phases strictly.
-/

/-- Error identity (models a Go `error` value; `Option Err` models nillable). -/
abbrev Err := Nat

/-- Hook identity label (models a registered `func()`). -/
abbrev Hook := Nat

/-! ### cancellable package: `cancellable.cancellable` -/

/-- State of a `cancellable` context (package `cancellable`).
`hasCancelFn` models whether the `cancel context.CancelCauseFunc` field is
non-nil; `cause` models the cancellation cause stored by
`context.WithCancelCause` (nil until the first effective cancel). -/
structure Cancellable where
  hasCancelFn : Bool
  cause : Option Err
  deriving DecidableEq, Repr

/-- Model of `cancellable.New(parent)`: fresh context with a cancel func and no cause. -/
def Cancellable.newCtx : Cancellable := ⟨true, none⟩

/-- Semantics of the `context.CancelCauseFunc` produced by
`context.WithCancelCause`: the first call records its argument as the cause;
every later call is a no-op. -/
def Cancellable.cancelCause (c : Cancellable) (e : Err) : Cancellable :=
  if c.cause = none then { c with cause := some e } else c

/-- Model of `(c *cancellable).Cancel(err)`: panics when the cancel func is nil,
otherwise invokes the cancel-cause func. -/
def Cancellable.Cancel (c : Cancellable) (e : Err) : Except String Cancellable :=
  if c.hasCancelFn = false then .error "cancellable: not initialized"
  else .ok (c.cancelCause e)

/-- Model of `(c *cancellable).Wait()`: blocks on `<-c.Done()` and then returns
`context.Cause(c)`.  The returned value once the context is done. -/
def Cancellable.waitResult (c : Cancellable) : Option Err := c.cause

/-! ### cancellable package: `cancellableChan.Updates2` -/

/-- Buffered-channel element type used in this development. -/
abbrev Item := Nat

/-- Loop body of `cancellableChan.Updates2`: repeatedly receive from the
buffer (`select`/`default`), accumulating into `updates`; when the buffer is
exhausted, return nil (`none`) when nothing was collected, the collected
slice otherwise. -/
def updates2Loop (buf acc : List Item) : Option (List Item) :=
  match buf with
  | u :: rest => updates2Loop rest (acc ++ [u])
  | [] => if acc.isEmpty then none else some acc

/-- Model of `(c *cancellableChan).Updates2()` applied to the current buffer contents
(no concurrent senders): drains everything queued, returning nil when the
buffer was empty. -/
def Updates2 (buf : List Item) : Option (List Item) := updates2Loop buf []

/-! ### superchan package: Superchan state and registration -/

/-- State of a `Superchan` (package `superchan`): the embedded cancellable
context's cause (`err`: `s.Err() != nil` iff cancelled) and the deferred
registry: the ordered list `deferfuncs` (a nillable slice) and the two
singleton slots `deferfirst` and `deferlast`. -/
structure Superchan where
  err : Option Err
  deferfuncs : Option (List Hook)
  deferfirst : Option Hook
  deferlast : Option Hook
  deriving DecidableEq, Repr

/-- Model of `NewRaw(parent)`: fresh Superchan with a non-nil empty `deferfuncs`. -/
def NewRaw : Superchan := ⟨none, some [], none, none⟩

/-- Model of `(s *Superchan).IsDead()`: `s.deferfuncs == nil`. -/
def Superchan.IsDead (s : Superchan) : Bool := s.deferfuncs.isNone

/-- Model of `(s *Superchan).Defer(f...)`: panics when the context is already
cancelled; otherwise prepends each function in turn to `deferfuncs`
(`append([]func()\x7bff\x7d, s.deferfuncs...)`, which on a nil slice yields a
non-nil one-element slice). -/
def Superchan.Defer (s : Superchan) (f : List Hook) : Except String Superchan :=
  if s.err ≠ none then .error "cannot defer after cancel"
  else .ok { s with
    deferfuncs := some (f.foldl (fun acc ff => ff :: acc) (s.deferfuncs.getD [])) }

/-- Model of `(s *Superchan).DeferFirst(f)`: panics when cancelled or when the slot is
already set. -/
def Superchan.DeferFirst (s : Superchan) (f : Hook) : Except String Superchan :=
  if s.err ≠ none then .error "cannot defer after cancel"
  else if s.deferfirst ≠ none then .error "deferfirst already set"
  else .ok { s with deferfirst := some f }

/-- Model of `(s *Superchan).DeferLast(f)`: panics when cancelled or when the slot is
already set. -/
def Superchan.DeferLast (s : Superchan) (f : Hook) : Except String Superchan :=
  if s.err ≠ none then .error "cannot defer after cancel"
  else if s.deferlast ≠ none then .error "deferlast already set"
  else .ok { s with deferlast := some f }

/-- Model of `(s *Superchan).GetDeferred()`. -/
def Superchan.GetDeferred (s : Superchan) : Option (List Hook) := s.deferfuncs

/-- Model of `(s *Superchan).SetDeferred(f)`: unconditional assignment, no checks. -/
def Superchan.SetDeferred (s : Superchan) (f : Option (List Hook)) : Superchan :=
  { s with deferfuncs := f }

/-! ### superchan package: the cleanup runner `rundeferred` -/

/-- The state after `rundeferred` clears the registry
(`s.deferlast = nil; s.deferfirst = nil; s.deferfuncs = nil`). -/
def Superchan.cleared (s : Superchan) : Superchan :=
  { s with deferlast := none, deferfirst := none, deferfuncs := none }

/-- The full hook sequence of one `rundeferred` run: first-hook, then the
ordered hooks (`mid`), then last-hook. -/
def Superchan.hookSeq (s : Superchan) (mid : List Hook) : List Hook :=
  s.deferfirst.toList ++ mid ++ s.deferlast.toList

/-- Run hooks sequentially (`caller` calls `fn()` directly, no `recover`),
given which hooks panic: returns the trace of hooks that started and whether
one of them panicked (aborting the run at that point). -/
def seqRunHooks (pan : Hook → Bool) : List Hook → List Hook × Bool
  | [] => ([], false)
  | h :: t =>
    if pan h then ([h], true)
    else
      let r := seqRunHooks pan t
      (h :: r.1, r.2)

/-- Model of `(s *Superchan).rundeferred()` with `UseGoroutineDefer = false`
(sequential mode): panics when the registry is already nil; otherwise calls
the first-hook, each ordered hook in slice order, and the last-hook directly.
A hook panic is NOT recovered in this mode: it propagates, aborting the run
before the registry is cleared (`Except.error` carries the partial trace).
On completion the registry is nilled. -/
def Superchan.rundeferredSeq (pan : Hook → Bool) (s : Superchan) :
    Except (String × List Hook) (Superchan × List Hook) :=
  match s.deferfuncs with
  | none => .error ("rundeferred called twice", [])
  | some l =>
    if (seqRunHooks pan (s.hookSeq l)).2 then
      .error ("panic in deferred func", (seqRunHooks pan (s.hookSeq l)).1)
    else .ok (s.cleared, (seqRunHooks pan (s.hookSeq l)).1)

/-- Model of `(s *Superchan).rundeferred()` with `UseGoroutineDefer = true` (fan-out
mode): panics when the registry is already nil; otherwise runs the first-hook
as a goroutine, joins (`wg.Wait`), runs every ordered hook as a goroutine,
joins, runs the last-hook, joins, and nils the registry.  `mid` is the
scheduler's execution interleaving of the ordered phase (meaningful under
`mid.Perm l`); each goroutine recovers a panic and logs it, so every hook
runs and the run always completes.  Returns the new state, the execution
trace, and the labels of the hooks whose panic was recovered and logged. -/
def Superchan.rundeferredFan (pan : Hook → Bool) (mid : List Hook) (s : Superchan) :
    Except (String × List Hook) (Superchan × List Hook × List Hook) :=
  match s.deferfuncs with
  | none => .error ("rundeferred called twice", [])
  | some _ => .ok (s.cleared, s.hookSeq mid, (s.hookSeq mid).filter pan)

/-! ### Registration sequences (for order-independence statements) -/

/-- One registration call on a Superchan. -/
inductive RegOp where
  | dfr (fs : List Hook)
  | dfrFirst (f : Hook)
  | dfrLast (f : Hook)
  deriving DecidableEq, Repr

/-- Apply one registration call. -/
def applyRegOp (s : Superchan) : RegOp → Except String Superchan
  | .dfr fs => s.Defer fs
  | .dfrFirst f => s.DeferFirst f
  | .dfrLast f => s.DeferLast f

/-- Apply a sequence of registration calls, propagating panics. -/
def applyRegOps (s : Superchan) : List RegOp → Except String Superchan
  | [] => .ok s
  | op :: rest =>
    match applyRegOp s op with
    | .error e => .error e
    | .ok s1 => applyRegOps s1 rest

/-- The functions passed to `Defer` calls, in call order. -/
def defersOf : List RegOp → List Hook
  | [] => []
  | .dfr fs :: rest => fs ++ defersOf rest
  | .dfrFirst _ :: rest => defersOf rest
  | .dfrLast _ :: rest => defersOf rest

/-- The functions passed to `DeferFirst` calls, in call order. -/
def firstsOf : List RegOp → List Hook
  | [] => []
  | .dfrFirst f :: rest => f :: firstsOf rest
  | .dfr _ :: rest => firstsOf rest
  | .dfrLast _ :: rest => firstsOf rest

/-- The functions passed to `DeferLast` calls, in call order. -/
def lastsOf : List RegOp → List Hook
  | [] => []
  | .dfrLast f :: rest => f :: lastsOf rest
  | .dfr _ :: rest => lastsOf rest
  | .dfrFirst _ :: rest => lastsOf rest

/-! ### superchan package: two-stage pipeline (`NewDouble`, `handledoublein`) -/

/-- State visible to one `handledoublein` call (revision of `NewDouble` at
lines 299-356 of the concatenated source): the inbound context's cause
(`errIn`, i.e. `chctx.Err()`), the outbound context's cause (`errOut`), and
the outbound channel buffer with its capacity. -/
structure DoubleState where
  errIn : Option Err
  errOut : Option Err
  outBuf : List Item
  outCap : Nat
  deriving DecidableEq, Repr

/-- Model of `handledoublein(chctx, chctx2, in, handler)`: returns immediately when
either context is already cancelled; otherwise runs the handler on the slot
(`out` starts pointing at `in`; the handler may transform it, null it, or
return an error which cancels the inbound context); when the slot is still
non-nil, performs the `select` offer to `chctx2.Ch()`: neither `Done` is
ready here, so the value is enqueued when the buffer has room and the
`default` branch silently drops it when the buffer is full.
The handler is modelled as a pure slot transformation
(`Item → Except Err (Option Item)`), `none` for a nil handler. -/
def handledoublein (handler : Option (Item → Except Err (Option Item)))
    (s : DoubleState) (inp : Item) : DoubleState :=
  if s.errIn ≠ none ∨ s.errOut ≠ none then s
  else
    let slotResult : Except Err (Option Item) :=
      match handler with
      | none => .ok (some inp)
      | some h => h inp
    match slotResult with
    | .error e => { s with errIn := if s.errIn = none then some e else s.errIn }
    | .ok none => s
    | .ok (some v) =>
      if s.outBuf.length < s.outCap then { s with outBuf := s.outBuf ++ [v] }
      else s

/-- State of a `NewDouble` pipeline as seen by the worker's
outbound-cancelled branch: the inbound Superchan and the outbound context's
cause (`context.Cause(chctx2)`). -/
structure NDState where
  inSuper : Superchan
  outCause : Option Err
  deriving DecidableEq, Repr

/-- The `case <-chctx2.Done():` branch of the `NewDouble` worker in the
revision at lines 299-329: `chctx.rundeferred(); return`.  The inbound
context is not cancelled and no cause is copied.  The `Bool` records that the
worker loop returns. -/
def newDoubleOutDoneV1 (pan : Hook → Bool) (nd : NDState) :
    Except (String × List Hook) (NDState × List Hook × Bool) :=
  match nd.inSuper.rundeferredSeq pan with
  | .error e => .error e
  | .ok (s', tr) => .ok ({ nd with inSuper := s' }, tr, true)

/-- The `case <-chctx2.Done():` branch of the `NewDouble` worker in the
revision at lines 604-644: `chctx.Cancel(context.Cause(chctx2));
chctx.rundeferred(); return`.  The cancel-cause write is write-once-wins. -/
def newDoubleOutDoneV2 (pan : Hook → Bool) (nd : NDState) :
    Except (String × List Hook) (NDState × List Hook × Bool) :=
  let s1 : Superchan :=
    { nd.inSuper with err := if nd.inSuper.err = none then nd.outCause else nd.inSuper.err }
  match s1.rundeferredSeq pan with
  | .error e => .error e
  | .ok (s', tr) => .ok ({ nd with inSuper := s' }, tr, true)

/-! ### Helper lemmas -/

/-- The `Defer` prepend loop reverses its argument onto the front. -/
theorem foldl_cons_eq_reverse_append (fs l : List Hook) :
    fs.foldl (fun acc ff => ff :: acc) l = fs.reverse ++ l := by
  induction fs generalizing l with
  | nil => simp
  | cons a t ih => simp [List.foldl_cons, ih, List.append_assoc]

/-- Sequential hook running never aborts when no hook panics. -/
theorem seqRunHooks_no_panic (hs : List Hook) :
    seqRunHooks (fun _ => false) hs = (hs, false) := by
  induction hs with
  | nil => rfl
  | cons h t ih => simp [seqRunHooks, ih]

theorem filter_const_false (l : List Hook) : l.filter (fun _ => false) = [] := by
  induction l with
  | nil => rfl
  | cons a t ih => simp [List.filter, ih]

/-- Lemma: `cancelCause` leaves an already-set cause untouched through any further
sequence of cancels. -/
theorem foldl_cancelCause_stable (c : Cancellable) (errs : List Err)
    (h : c.cause ≠ none) : errs.foldl Cancellable.cancelCause c = c := by
  induction errs with
  | nil => rfl
  | cons e t ih => simp [List.foldl_cons, Cancellable.cancelCause, h, ih]

/-- Successful registration sequences act on `deferfuncs` by prepending the
reverse of all `Defer` arguments. -/
theorem applyRegOps_ok_funcs (ops : List RegOp) :
    ∀ (s s' : Superchan) (l : List Hook), s.deferfuncs = some l →
      applyRegOps s ops = .ok s' →
      s'.deferfuncs = some ((defersOf ops).reverse ++ l) := by
  induction ops with
  | nil =>
    intro s s' l hl h
    simp only [applyRegOps, Except.ok.injEq] at h
    subst h
    simp [defersOf, hl]
  | cons op rest ih =>
    intro s s' l hl h
    simp only [applyRegOps] at h
    cases hop : applyRegOp s op with
    | error e => rw [hop] at h; exact absurd h (by simp)
    | ok s1 =>
      rw [hop] at h
      cases op with
      | dfr fs =>
        have h1 : s1.deferfuncs = some (fs.reverse ++ l) := by
          simp only [applyRegOp, Superchan.Defer] at hop
          split at hop
          · exact absurd hop (by simp)
          · simp only [Except.ok.injEq] at hop
            rw [← hop]
            simp [hl, foldl_cons_eq_reverse_append]
        have h2 := ih s1 s' (fs.reverse ++ l) h1 h
        rw [h2]
        simp [defersOf, List.append_assoc]
      | dfrFirst f =>
        have h1 : s1.deferfuncs = some l := by
          simp only [applyRegOp, Superchan.DeferFirst] at hop
          split at hop
          · exact absurd hop (by simp)
          · split at hop
            · exact absurd hop (by simp)
            · simp only [Except.ok.injEq] at hop
              rw [← hop]
              simpa using hl
        have h2 := ih s1 s' l h1 h
        rw [h2]
        simp [defersOf]
      | dfrLast f =>
        have h1 : s1.deferfuncs = some l := by
          simp only [applyRegOp, Superchan.DeferLast] at hop
          split at hop
          · exact absurd hop (by simp)
          · split at hop
            · exact absurd hop (by simp)
            · simp only [Except.ok.injEq] at hop
              rw [← hop]
              simpa using hl
        have h2 := ih s1 s' l h1 h
        rw [h2]
        simp [defersOf]

/-- A registration sequence with no `DeferFirst` call leaves `deferfirst`
unchanged. -/
theorem applyRegOps_ok_first_none (ops : List RegOp) :
    ∀ (s s' : Superchan), firstsOf ops = [] →
      applyRegOps s ops = .ok s' → s'.deferfirst = s.deferfirst := by
  induction ops with
  | nil =>
    intro s s' _ h
    simp only [applyRegOps, Except.ok.injEq] at h
    subst h
    rfl
  | cons op rest ih =>
    intro s s' hf h
    simp only [applyRegOps] at h
    cases hop : applyRegOp s op with
    | error e => rw [hop] at h; exact absurd h (by simp)
    | ok s1 =>
      rw [hop] at h
      cases op with
      | dfr fs =>
        have h1 : s1.deferfirst = s.deferfirst := by
          simp only [applyRegOp, Superchan.Defer] at hop
          split at hop
          · exact absurd hop (by simp)
          · simp only [Except.ok.injEq] at hop
            rw [← hop]
        rw [ih s1 s' (by simpa [firstsOf] using hf) h, h1]
      | dfrFirst f => simp [firstsOf] at hf
      | dfrLast f =>
        have h1 : s1.deferfirst = s.deferfirst := by
          simp only [applyRegOp, Superchan.DeferLast] at hop
          split at hop
          · exact absurd hop (by simp)
          · split at hop
            · exact absurd hop (by simp)
            · simp only [Except.ok.injEq] at hop
              rw [← hop]
        rw [ih s1 s' (by simpa [firstsOf] using hf) h, h1]

/-- A successful registration sequence containing exactly one
`DeferFirst(F)` call leaves `deferfirst = F`. -/
theorem applyRegOps_ok_first_single (ops : List RegOp) :
    ∀ (s s' : Superchan) (F : Hook), firstsOf ops = [F] →
      applyRegOps s ops = .ok s' → s'.deferfirst = some F := by
  induction ops with
  | nil => intro s s' F hf; simp [firstsOf] at hf
  | cons op rest ih =>
    intro s s' F hf h
    simp only [applyRegOps] at h
    cases hop : applyRegOp s op with
    | error e => rw [hop] at h; exact absurd h (by simp)
    | ok s1 =>
      rw [hop] at h
      cases op with
      | dfr fs =>
        have h1 : s1.deferfirst = s.deferfirst := by
          simp only [applyRegOp, Superchan.Defer] at hop
          split at hop
          · exact absurd hop (by simp)
          · simp only [Except.ok.injEq] at hop
            rw [← hop]
        exact ih s1 s' F (by simpa [firstsOf] using hf) h
      | dfrFirst f =>
        simp only [firstsOf, List.cons.injEq] at hf
        have h1 : s1.deferfirst = some F := by
          simp only [applyRegOp, Superchan.DeferFirst] at hop
          split at hop
          · exact absurd hop (by simp)
          · split at hop
            · exact absurd hop (by simp)
            · simp only [Except.ok.injEq] at hop
              rw [← hop]
              simp [hf.1]
        rw [applyRegOps_ok_first_none rest s1 s' hf.2 h, h1]
      | dfrLast f =>
        have h1 : s1.deferfirst = s.deferfirst := by
          simp only [applyRegOp, Superchan.DeferLast] at hop
          split at hop
          · exact absurd hop (by simp)
          · split at hop
            · exact absurd hop (by simp)
            · simp only [Except.ok.injEq] at hop
              rw [← hop]
        exact ih s1 s' F (by simpa [firstsOf] using hf) h

/-- A registration sequence with no `DeferLast` call leaves `deferlast`
unchanged. -/
theorem applyRegOps_ok_last_none (ops : List RegOp) :
    ∀ (s s' : Superchan), lastsOf ops = [] →
      applyRegOps s ops = .ok s' → s'.deferlast = s.deferlast := by
  induction ops with
  | nil =>
    intro s s' _ h
    simp only [applyRegOps, Except.ok.injEq] at h
    subst h
    rfl
  | cons op rest ih =>
    intro s s' hf h
    simp only [applyRegOps] at h
    cases hop : applyRegOp s op with
    | error e => rw [hop] at h; exact absurd h (by simp)
    | ok s1 =>
      rw [hop] at h
      cases op with
      | dfr fs =>
        have h1 : s1.deferlast = s.deferlast := by
          simp only [applyRegOp, Superchan.Defer] at hop
          split at hop
          · exact absurd hop (by simp)
          · simp only [Except.ok.injEq] at hop
            rw [← hop]
        rw [ih s1 s' (by simpa [lastsOf] using hf) h, h1]
      | dfrLast f => simp [lastsOf] at hf
      | dfrFirst f =>
        have h1 : s1.deferlast = s.deferlast := by
          simp only [applyRegOp, Superchan.DeferFirst] at hop
          split at hop
          · exact absurd hop (by simp)
          · split at hop
            · exact absurd hop (by simp)
            · simp only [Except.ok.injEq] at hop
              rw [← hop]
        rw [ih s1 s' (by simpa [lastsOf] using hf) h, h1]

/-- A successful registration sequence containing exactly one `DeferLast(L)`
call leaves `deferlast = L`. -/
theorem applyRegOps_ok_last_single (ops : List RegOp) :
    ∀ (s s' : Superchan) (L : Hook), lastsOf ops = [L] →
      applyRegOps s ops = .ok s' → s'.deferlast = some L := by
  induction ops with
  | nil => intro s s' L hf; simp [lastsOf] at hf
  | cons op rest ih =>
    intro s s' L hf h
    simp only [applyRegOps] at h
    cases hop : applyRegOp s op with
    | error e => rw [hop] at h; exact absurd h (by simp)
    | ok s1 =>
      rw [hop] at h
      cases op with
      | dfr fs =>
        have h1 : s1.deferlast = s.deferlast := by
          simp only [applyRegOp, Superchan.Defer] at hop
          split at hop
          · exact absurd hop (by simp)
          · simp only [Except.ok.injEq] at hop
            rw [← hop]
        exact ih s1 s' L (by simpa [lastsOf] using hf) h
      | dfrLast f =>
        simp only [lastsOf, List.cons.injEq] at hf
        have h1 : s1.deferlast = some L := by
          simp only [applyRegOp, Superchan.DeferLast] at hop
          split at hop
          · exact absurd hop (by simp)
          · split at hop
            · exact absurd hop (by simp)
            · simp only [Except.ok.injEq] at hop
              rw [← hop]
              simp [hf.1]
        rw [applyRegOps_ok_last_none rest s1 s' hf.2 h, h1]
      | dfrFirst f =>
        have h1 : s1.deferlast = s.deferlast := by
          simp only [applyRegOp, Superchan.DeferFirst] at hop
          split at hop
          · exact absurd hop (by simp)
          · split at hop
            · exact absurd hop (by simp)
            · simp only [Except.ok.injEq] at hop
              rw [← hop]
        exact ih s1 s' L (by simpa [lastsOf] using hf) h

/-- A successful sequential cleanup run leaves a nil registry. -/
theorem rundeferredSeq_ok_dead (pan : Hook → Bool) (s s1 : Superchan) (tr : List Hook)
    (h : s.rundeferredSeq pan = .ok (s1, tr)) : s1.deferfuncs = none := by
  unfold Superchan.rundeferredSeq at h
  split at h
  · exact absurd h (by simp)
  · split at h
    · exact absurd h (by simp)
    · simp only [Except.ok.injEq, Prod.mk.injEq] at h
      rw [← h.1]
      rfl

/-- A successful fan-out cleanup run leaves a nil registry. -/
theorem rundeferredFan_ok_dead (pan : Hook → Bool) (mid : List Hook)
    (s s1 : Superchan) (tr logs : List Hook)
    (h : s.rundeferredFan pan mid = .ok (s1, tr, logs)) : s1.deferfuncs = none := by
  unfold Superchan.rundeferredFan at h
  split at h
  · exact absurd h (by simp)
  · simp only [Except.ok.injEq, Prod.mk.injEq] at h
    rw [← h.1]
    rfl

/-! ### Claim theorems -/

/-- C3: the cancellation cause is write-once-wins.  `Cancel(err)` records
`err` as the cause exactly when no cause is yet recorded; once the cause is
non-nil it never changes under any further sequence of cancels; and the
value observed by every `Wait()` caller is that single first-recorded
cause. -/
theorem cancel_cause_write_once (c : Cancellable) (e : Err) :
    (c.cause = none → (c.cancelCause e).cause = some e) ∧
    (c.cause ≠ none → c.cancelCause e = c) ∧
    (∀ errs : List Err, c.cause ≠ none → errs.foldl Cancellable.cancelCause c = c) ∧
    (∀ errs : List Err,
      (errs.foldl Cancellable.cancelCause (Cancellable.newCtx.cancelCause e)).waitResult
        = some e) := by
  refine ⟨?_, ?_, ?_, ?_⟩
  · intro h
    simp [Cancellable.cancelCause, h]
  · intro h
    simp [Cancellable.cancelCause, h]
  · intro errs h
    exact foldl_cancelCause_stable c errs h
  · intro errs
    have h1 : (Cancellable.newCtx.cancelCause e).cause = some e := by
      simp [Cancellable.cancelCause, Cancellable.newCtx]
    rw [foldl_cancelCause_stable _ errs (by simp [h1])]
    simp [Cancellable.waitResult, h1]

/-- Witness for C3 at a fresh context, cause 5, later cancels 7 and 9. -/
theorem cancel_cause_write_once_witness :
    (Cancellable.newCtx.cancelCause 5).cause = some 5 ∧
    ([7, 9].foldl Cancellable.cancelCause (Cancellable.newCtx.cancelCause 5)).waitResult
      = some 5 := by
  have h := cancel_cause_write_once Cancellable.newCtx 5
  exact ⟨h.1 rfl, h.2.2.2 [7, 9]⟩

/-- C4: on a Superchan whose cause is already non-nil, every registration
call (`Defer`, `DeferFirst`, `DeferLast`) panics. -/
theorem register_after_cancel_panics (s : Superchan) (e : Err)
    (fs : List Hook) (f g : Hook) (h : s.err = some e) :
    s.Defer fs = .error "cannot defer after cancel" ∧
    s.DeferFirst f = .error "cannot defer after cancel" ∧
    s.DeferLast g = .error "cannot defer after cancel" := by
  refine ⟨?_, ?_, ?_⟩ <;>
    simp [Superchan.Defer, Superchan.DeferFirst, Superchan.DeferLast, h]

/-- Witness for C4 on a cancelled Superchan. -/
theorem register_after_cancel_panics_witness :
    Superchan.Defer ⟨some 3, some [1], none, none⟩ [4]
      = .error "cannot defer after cancel" ∧
    Superchan.DeferFirst ⟨some 3, some [1], none, none⟩ 5
      = .error "cannot defer after cancel" ∧
    Superchan.DeferLast ⟨some 3, some [1], none, none⟩ 6
      = .error "cannot defer after cancel" :=
  register_after_cancel_panics ⟨some 3, some [1], none, none⟩ 3 [4] 5 6 rfl

/-- C5: the cleanup runner executes at most once per instance: after any
successful run (either execution mode) the registry is dead, and a second
invocation of `rundeferred` panics in either mode. -/
theorem rundeferred_at_most_once (pan pan2 : Hook → Bool) (mid mid2 : List Hook)
    (s s1 : Superchan) (tr : List Hook)
    (h : s.rundeferredSeq pan = .ok (s1, tr) ∨
      ∃ tr1 logs, s.rundeferredFan pan mid = .ok (s1, tr1, logs)) :
    s1.IsDead = true ∧
    s1.rundeferredSeq pan2 = .error ("rundeferred called twice", []) ∧
    s1.rundeferredFan pan2 mid2 = .error ("rundeferred called twice", []) := by
  have hdead : s1.deferfuncs = none := by
    rcases h with h | ⟨tr1, logs, h⟩
    · exact rundeferredSeq_ok_dead pan s s1 tr h
    · exact rundeferredFan_ok_dead pan mid s s1 tr1 logs h
  refine ⟨by simp [Superchan.IsDead, hdead], ?_, ?_⟩
  · simp [Superchan.rundeferredSeq, hdead]
  · simp [Superchan.rundeferredFan, hdead]

/-- Witness for C5: run the cleanup on a fresh Superchan, then again. -/
theorem rundeferred_at_most_once_witness :
    Superchan.IsDead ⟨none, none, none, none⟩ = true ∧
    Superchan.rundeferredSeq (fun _ => false) ⟨none, none, none, none⟩
      = .error ("rundeferred called twice", []) ∧
    Superchan.rundeferredFan (fun _ => false) [] ⟨none, none, none, none⟩
      = .error ("rundeferred called twice", []) :=
  rundeferred_at_most_once (fun _ => false) (fun _ => false) [] []
    NewRaw ⟨none, none, none, none⟩ [] (Or.inl rfl)

/-- C9: `Updates2` returns nil (not an empty slice) when nothing is queued,
and otherwise returns every queued item, in queue order. -/
theorem updates2_nil_or_all (buf : List Item) :
    (buf = [] → Updates2 buf = none) ∧ (buf ≠ [] → Updates2 buf = some buf) := by
  constructor
  · intro h
    subst h
    rfl
  · intro h
    cases buf with
    | nil => exact absurd rfl h
    | cons a t =>
      have step : ∀ (b acc : List Item), updates2Loop b acc
          = if (acc ++ b).isEmpty then none else some (acc ++ b) := by
        intro b
        induction b with
        | nil => intro acc; simp [updates2Loop]
        | cons u rest ih => intro acc; simp [updates2Loop, ih]
      simp [Updates2, step]

/-- Witness for C9 on an empty and a two-element buffer. -/
theorem updates2_nil_or_all_witness :
    Updates2 [] = none ∧ Updates2 [1, 2] = some [1, 2] :=
  ⟨(updates2_nil_or_all []).1 rfl, (updates2_nil_or_all [1, 2]).2 (by decide)⟩

/-- C1 (amended): for any registration interleaving whose `Defer` calls pass
A, B, C in that order and which sets first-hook F and last-hook L, the
sequential cleanup runner executes exactly F, C, B, A, L; the fan-out runner
executes F, then the ordered hooks in some scheduler-chosen interleaving of
C, B, A, then L; and in sequential mode the first/ordered/last phase order
holds for any number of ordered hooks. -/
theorem rundeferred_order (A B C F L : Hook) (ops : List RegOp) (s : Superchan)
    (hops : applyRegOps NewRaw ops = .ok s)
    (hd : defersOf ops = [A, B, C]) (hf : firstsOf ops = [F])
    (hl : lastsOf ops = [L]) :
    Superchan.rundeferredSeq (fun _ => false) s = .ok (s.cleared, [F, C, B, A, L]) ∧
    (∀ mid : List Hook, mid.Perm [C, B, A] →
      Superchan.rundeferredFan (fun _ => false) mid s
        = .ok (s.cleared, F :: (mid ++ [L]), [])) ∧
    (∀ (s2 : Superchan) (l2 : List Hook), s2.deferfuncs = some l2 →
      Superchan.rundeferredSeq (fun _ => false) s2
        = .ok (s2.cleared, s2.deferfirst.toList ++ l2 ++ s2.deferlast.toList)) := by
  have hfn : s.deferfuncs = some [C, B, A] := by
    have h0 := applyRegOps_ok_funcs ops NewRaw s [] rfl hops
    simpa [hd] using h0
  have hfi : s.deferfirst = some F := applyRegOps_ok_first_single ops NewRaw s F hf hops
  have hla : s.deferlast = some L := applyRegOps_ok_last_single ops NewRaw s L hl hops
  refine ⟨?_, ?_, ?_⟩
  · simp [Superchan.rundeferredSeq, hfn, Superchan.hookSeq, hfi, hla, seqRunHooks_no_panic]
  · intro mid _
    simp [Superchan.rundeferredFan, hfn, Superchan.hookSeq, hfi, hla, filter_const_false]
  · intro s2 l2 h2
    simp [Superchan.rundeferredSeq, h2, Superchan.hookSeq, seqRunHooks_no_panic]

/-- Witness for C1 (amended): Defer(1); Defer(2); Defer(3); DeferFirst(10);
DeferLast(20) on a fresh Superchan, then both runner modes. -/
theorem rundeferred_order_witness :
    Superchan.rundeferredSeq (fun _ => false) ⟨none, some [3, 2, 1], some 10, some 20⟩
      = .ok (Superchan.cleared ⟨none, some [3, 2, 1], some 10, some 20⟩,
             [10, 3, 2, 1, 20]) ∧
    Superchan.rundeferredFan (fun _ => false) [2, 3, 1] ⟨none, some [3, 2, 1], some 10, some 20⟩
      = .ok (Superchan.cleared ⟨none, some [3, 2, 1], some 10, some 20⟩,
             10 :: ([2, 3, 1] ++ [20]), []) := by
  have h := rundeferred_order 1 2 3 10 20
    [RegOp.dfr [1], RegOp.dfr [2], RegOp.dfr [3], RegOp.dfrFirst 10, RegOp.dfrLast 20]
    ⟨none, some [3, 2, 1], some 10, some 20⟩ rfl rfl rfl rfl
  exact ⟨h.1, h.2.1 [2, 3, 1] (by decide)⟩

/-- C1 counterexample: in fan-out mode the scheduler may interleave the
ordered hooks as 2, 3, 1 (a permutation of the registered 3, 2, 1), giving
the execution trace 10, 2, 3, 1, 20, which differs from the claimed exact
order 10, 3, 2, 1, 20. -/
theorem rundeferred_order_counterexample :
    Superchan.rundeferredFan (fun _ => false) [2, 3, 1]
        ⟨none, some [3, 2, 1], some 10, some 20⟩
      = .ok (⟨none, none, none, none⟩, [10, 2, 3, 1, 20], []) ∧
    List.Perm [2, 3, 1] [3, 2, 1] ∧
    ([10, 2, 3, 1, 20] : List Hook) ≠ [10, 3, 2, 1, 20] :=
  ⟨rfl, by decide, by decide⟩

/-- C2: in the `NewDouble` revision with the slot handler (`handledoublein`),
after the handler returns with a non-null slot the forward to the outbound
channel is a non-blocking offer: enqueue when there is room, silently drop
(state unchanged, no error) when full.  With outbound capacity 1, pushing X
then Y through an identity handler leaves exactly X queued and drops Y. -/
theorem pipeline_forward_drop (h : Item → Except Err (Option Item)) (s : DoubleState)
    (inp v X Y : Item) (hIn : s.errIn = none) (hOut : s.errOut = none) :
    (h inp = .ok (some v) →
      handledoublein (some h) s inp
        = (if s.outBuf.length < s.outCap then { s with outBuf := s.outBuf ++ [v] }
           else s)) ∧
    handledoublein (some fun x => .ok (some x))
        (handledoublein (some fun x => .ok (some x)) ⟨none, none, [], 1⟩ X) Y
      = ⟨none, none, [X], 1⟩ := by
  constructor
  · intro hv
    simp [handledoublein, hIn, hOut, hv]
  · simp [handledoublein]

/-- Witness for C2: enqueue into an empty capacity-1 buffer, then the X/Y
drop scenario. -/
theorem pipeline_forward_drop_witness :
    handledoublein (some fun x => .ok (some x)) ⟨none, none, [], 1⟩ 7
      = ⟨none, none, [7], 1⟩ ∧
    handledoublein (some fun x => .ok (some x))
        (handledoublein (some fun x => .ok (some x)) ⟨none, none, [], 1⟩ 0) 1
      = ⟨none, none, [0], 1⟩ := by
  have h := pipeline_forward_drop (fun x => .ok (some x)) ⟨none, none, [], 1⟩ 7 7 0 1 rfl rfl
  refine ⟨?_, h.2⟩
  rw [h.1 rfl]
  rfl

/-- C6 (amended): `IsDead()` is false at `NewRaw` construction and stays
false through every successful registration sequence; a completed cleanup
run makes it true; and while the context is cancelled (the default shutdown
path cancels before cleanup) no registry operation can take the instance
back out of the dead state: every registration and a repeated runner
invocation panic.  (Without cancellation, or via `SetDeferred`, a dead
registry can be resurrected — see the counterexample.) -/
theorem isdead_lifecycle (ops : List RegOp) (s sd t : Superchan)
    (pan pan2 : Hook → Bool) (mid : List Hook) (tr : List Hook) (e : Err)
    (fs : List Hook) (f g : Hook) :
    NewRaw.IsDead = false ∧
    (applyRegOps NewRaw ops = .ok s → s.IsDead = false) ∧
    (s.rundeferredSeq pan = .ok (sd, tr) → sd.IsDead = true) ∧
    (t.IsDead = true → t.err = some e →
      t.Defer fs = .error "cannot defer after cancel" ∧
      t.DeferFirst f = .error "cannot defer after cancel" ∧
      t.DeferLast g = .error "cannot defer after cancel" ∧
      t.rundeferredSeq pan2 = .error ("rundeferred called twice", []) ∧
      t.rundeferredFan pan2 mid = .error ("rundeferred called twice", [])) := by
  refine ⟨rfl, ?_, ?_, ?_⟩
  · intro h
    have h1 := applyRegOps_ok_funcs ops NewRaw s [] rfl h
    simp [Superchan.IsDead, h1]
  · intro h
    have h1 := rundeferredSeq_ok_dead pan s sd tr h
    simp [Superchan.IsDead, h1]
  · intro hdead herr
    have h1 : t.deferfuncs = none := by
      simpa [Superchan.IsDead, Option.isNone_iff_eq_none] using hdead
    refine ⟨?_, ?_, ?_, ?_, ?_⟩
    · simp [Superchan.Defer, herr]
    · simp [Superchan.DeferFirst, herr]
    · simp [Superchan.DeferLast, herr]
    · simp [Superchan.rundeferredSeq, h1]
    · simp [Superchan.rundeferredFan, h1]

/-- Witness for C6 (amended) at concrete states: one registration on a fresh
instance, a completed run, and a dead cancelled instance. -/
theorem isdead_lifecycle_witness :
    NewRaw.IsDead = false ∧
    Superchan.IsDead ⟨none, some [1], none, none⟩ = false ∧
    Superchan.IsDead ⟨none, none, none, none⟩ = true ∧
    Superchan.Defer ⟨some 5, none, none, none⟩ [2]
      = .error "cannot defer after cancel" ∧
    Superchan.rundeferredSeq (fun _ => false) ⟨some 5, none, none, none⟩
      = .error ("rundeferred called twice", []) := by
  have h := isdead_lifecycle [RegOp.dfr [1]] ⟨none, some [1], none, none⟩
    ⟨none, none, none, none⟩ ⟨some 5, none, none, none⟩
    (fun _ => false) (fun _ => false) [] [1] 5 [2] 3 4
  have h4 := h.2.2.2 rfl rfl
  exact ⟨h.1, h.2.1 rfl, h.2.2.1 rfl, h4.1, h4.2.2.2.1⟩

/-- C6 counterexample: `rundeferred` may run while the context is not yet
cancelled (`CancelBeforeDefer = false` path); a subsequent `Defer` call then
succeeds (`Err()` is nil) and rebuilds a non-nil registry out of the nil
one, so `IsDead()` flips back from true to false. -/
theorem isdead_lifecycle_counterexample :
    Superchan.rundeferredSeq (fun _ => false) NewRaw
      = .ok (⟨none, none, none, none⟩, []) ∧
    Superchan.IsDead ⟨none, none, none, none⟩ = true ∧
    Superchan.Defer ⟨none, none, none, none⟩ [1] = .ok ⟨none, some [1], none, none⟩ ∧
    Superchan.IsDead ⟨none, some [1], none, none⟩ = false :=
  ⟨rfl, rfl, rfl, rfl⟩

/-- C7 (amended): in fan-out (default) mode a panicking deferred hook is
recovered and logged and prevents neither its siblings nor the later phases:
the run completes, every registered hook appears in the execution trace, the
panicking ones are exactly the logged ones, and the registry reaches the
dead state.  (In sequential mode a hook panic propagates instead — see the
counterexample.) -/
theorem hook_panic_contained (pan : Hook → Bool) (mid : List Hook) (s : Superchan)
    (l : List Hook) (hl : s.deferfuncs = some l) (hm : mid.Perm l) :
    s.rundeferredFan pan mid
      = .ok (s.cleared, s.hookSeq mid, (s.hookSeq mid).filter pan) ∧
    (s.cleared).IsDead = true ∧
    ∀ h, h ∈ l → h ∈ s.hookSeq mid := by
  refine ⟨?_, rfl, ?_⟩
  · simp [Superchan.rundeferredFan, hl]
  · intro h hmem
    have h1 : h ∈ mid := hm.mem_iff.mpr hmem
    simp [Superchan.hookSeq, h1]

/-- Witness for C7 (amended): hooks 1 and 2 registered, hook 1 panics, the
fan-out run still executes first-hook 0, both ordered hooks and last-hook 9,
logs hook 1, and kills the registry. -/
theorem hook_panic_contained_witness :
    Superchan.rundeferredFan (fun h => h == 1) [2, 1] ⟨none, some [1, 2], some 0, some 9⟩
      = .ok (⟨none, none, none, none⟩, [0, 2, 1, 9], [1]) ∧
    (1 : Hook) ∈ ([0, 2, 1, 9] : List Hook) ∧
    (2 : Hook) ∈ ([0, 2, 1, 9] : List Hook) := by
  have h := hook_panic_contained (fun h => h == 1) [2, 1]
    ⟨none, some [1, 2], some 0, some 9⟩ [1, 2] rfl (by decide)
  exact ⟨h.1, h.2.2 1 (by decide), h.2.2 2 (by decide)⟩

/-- C7 counterexample: in sequential mode (`UseGoroutineDefer = false`) the
hooks are called directly with no `recover`: a panic in hook 1 propagates,
hook 2 and last-hook 3 never run, and the registry is not cleared. -/
theorem hook_panic_contained_counterexample :
    Superchan.rundeferredSeq (fun h => h == 1) ⟨none, some [1, 2], none, some 3⟩
      = .error ("panic in deferred func", [1]) :=
  rfl

/-- C8 (amended): when the outbound stage of a `NewDouble` pipeline is
cancelled independently (inbound uncancelled, outbound cause e), both
revisions of the worker's outbound-done branch run the inbound cleanup
registry and terminate the loop; the revision at lines 604-644 first cancels
the inbound stage with the outbound cause, so the inbound cause becomes e,
while the revision at lines 299-329 leaves the inbound context uncancelled,
propagating no cause. -/
theorem outbound_cancel_propagation (nd : NDState) (e : Err) (l : List Hook)
    (hIn : nd.inSuper.err = none) (hOut : nd.outCause = some e)
    (hl : nd.inSuper.deferfuncs = some l) :
    (∃ nd2 tr2, newDoubleOutDoneV2 (fun _ => false) nd = .ok (nd2, tr2, true) ∧
      nd2.inSuper.err = some e ∧ nd2.inSuper.IsDead = true) ∧
    (∃ nd1 tr1, newDoubleOutDoneV1 (fun _ => false) nd = .ok (nd1, tr1, true) ∧
      nd1.inSuper.err = none ∧ nd1.inSuper.IsDead = true) := by
  obtain ⟨⟨ie, idf, ifi, ila⟩, oc⟩ := nd
  simp only at hIn hOut hl
  subst hIn
  subst hOut
  subst hl
  constructor
  · refine ⟨⟨⟨some e, none, none, none⟩, some e⟩,
      ifi.toList ++ l ++ ila.toList, ?_, rfl, rfl⟩
    simp [newDoubleOutDoneV2, Superchan.rundeferredSeq, Superchan.hookSeq,
      Superchan.cleared, seqRunHooks_no_panic]
  · refine ⟨⟨⟨none, none, none, none⟩, some e⟩,
      ifi.toList ++ l ++ ila.toList, ?_, rfl, rfl⟩
    simp [newDoubleOutDoneV1, Superchan.rundeferredSeq, Superchan.hookSeq,
      Superchan.cleared, seqRunHooks_no_panic]

/-- Witness for C8 (amended): inbound with one deferred hook, outbound
cancelled with cause 7. -/
theorem outbound_cancel_propagation_witness :
    (∃ nd2 tr2, newDoubleOutDoneV2 (fun _ => false)
        ⟨⟨none, some [4], some 1, some 2⟩, some 7⟩ = .ok (nd2, tr2, true) ∧
      nd2.inSuper.err = some 7 ∧ nd2.inSuper.IsDead = true) ∧
    (∃ nd1 tr1, newDoubleOutDoneV1 (fun _ => false)
        ⟨⟨none, some [4], some 1, some 2⟩, some 7⟩ = .ok (nd1, tr1, true) ∧
      nd1.inSuper.err = none ∧ nd1.inSuper.IsDead = true) :=
  outbound_cancel_propagation ⟨⟨none, some [4], some 1, some 2⟩, some 7⟩ 7 [4]
    rfl rfl rfl

/-- C8 counterexample: in the `NewDouble` revision at lines 299-329, with the
outbound stage cancelled (cause 7) the worker runs the inbound cleanup and
returns, but the inbound context's cause stays nil: the outbound cause does
not become the inbound stage's reported cause. -/
theorem outbound_cancel_propagation_counterexample :
    newDoubleOutDoneV1 (fun _ => false) ⟨⟨none, some [], none, none⟩, some 7⟩
      = .ok (⟨⟨none, none, none, none⟩, some 7⟩, [], true) ∧
    (⟨none, none, none, none⟩ : Superchan).err = none ∧
    (none : Option Err) ≠ some 7 :=
  ⟨rfl, rfl, by decide⟩

/-- C10: the exported `SetDeferred` performs no precondition check: on every
Superchan, in every state, `SetDeferred(nil)` succeeds, makes `IsDead()`
true although no hook ran and the context need not be cancelled, after which
any invocation of the cleanup runner panics; and unlike `Defer`, it also
succeeds on an already-cancelled instance, bypassing the
register-after-cancel panic rule. -/
theorem setdeferred_bypass (s : Superchan) (pan : Hook → Bool)
    (mid fs : List Hook) (e : Err) :
    (s.SetDeferred none).IsDead = true ∧
    (s.SetDeferred none).err = s.err ∧
    (s.SetDeferred none).rundeferredSeq pan = .error ("rundeferred called twice", []) ∧
    (s.SetDeferred none).rundeferredFan pan mid = .error ("rundeferred called twice", []) ∧
    (s.err = some e →
      s.Defer fs = .error "cannot defer after cancel" ∧
      s.SetDeferred (some fs) = { s with deferfuncs := some fs }) := by
  refine ⟨rfl, rfl, ?_, ?_, ?_⟩
  · simp [Superchan.rundeferredSeq, Superchan.SetDeferred]
  · simp [Superchan.rundeferredFan, Superchan.SetDeferred]
  · intro h
    exact ⟨by simp [Superchan.Defer, h], rfl⟩

/-- Witness for C10 on a cancelled Superchan with a pending hook. -/
theorem setdeferred_bypass_witness :
    (Superchan.SetDeferred ⟨some 3, some [1], some 2, none⟩ none).IsDead = true ∧
    (Superchan.SetDeferred ⟨some 3, some [1], some 2, none⟩ none).err = some 3 ∧
    Superchan.rundeferredSeq (fun _ => false)
        (Superchan.SetDeferred ⟨some 3, some [1], some 2, none⟩ none)
      = .error ("rundeferred called twice", []) ∧
    Superchan.Defer ⟨some 3, some [1], some 2, none⟩ [9]
      = .error "cannot defer after cancel" ∧
    Superchan.SetDeferred ⟨some 3, some [1], some 2, none⟩ (some [9])
      = ⟨some 3, some [9], some 2, none⟩ := by
  have h := setdeferred_bypass ⟨some 3, some [1], some 2, none⟩ (fun _ => false) [] [9] 3
  have h5 := h.2.2.2.2 rfl
  exact ⟨h.1, h.2.1, h.2.2.1, h5.1, h5.2⟩
